import Mathlib

/-!
Verification development for the hyper-clipaudio repository
(src/windows.py, the Windows sync client, and src/linux_listener.py, the
Linux hub).  Each definition is a shallow embedding of the Python function
named in its doc comment; numbers are Nat, wall-clock times are Rat,
byte strings are List Nat, and fallible code returns Option/Except.
The SHA-256, zlib and base64 library routines are external collaborators,
so theorems that need them take them as function parameters together with
the inverse properties those libraries guarantee.
-/

/-! Transport framing.  windows.py _send_data_with_progress (lines 408-426)
frames a serialized JSON payload as the decimal character count, a colon,
then the payload; json.dumps uses ensure_ascii, so the payload bytes are
ASCII and the character count equals the byte count.  The receiver
(_receive_data_with_progress, lines 428-466) reads bytes up to the first
colon, parses them as a decimal integer, then reads exactly that many
payload bytes.  linux_listener.py broadcast_to_clients (lines 184-210)
instead frames a broadcast as the JSON bytes, a newline, and a separate
literal OK line. -/

/-- Little-endian decimal digits of n, with enough fuel to terminate (a
number has no more digits than its value). -/
def decDigits : Nat → Nat → List Nat
  | 0, _ => []
  | f + 1, n => if n = 0 then [] else n % 10 :: decDigits f (n / 10)

/-- Decimal ASCII bytes of a natural number, as Python str(n) produces. -/
def toDecimalBytes (n : Nat) : List Nat :=
  if n = 0 then [48] else ((decDigits n n).reverse).map (fun d => d + 48)

/-- Frame built by windows.py line 412: str(len(payload)) ++ colon ++ payload. -/
def clientFrame (payload : List Nat) : List Nat :=
  toDecimalBytes payload.length ++ 58 :: payload

/-- Header scan of windows.py lines 432-437: consume bytes until the first
colon (byte 58), returning the bytes before it and the remainder. -/
def splitAtColon : List Nat → Option (List Nat × List Nat)
  | [] => none
  | b :: rest =>
    if b = 58 then some ([], rest)
    else
      match splitAtColon rest with
      | some (h, t) => some (b :: h, t)
      | none => none

/-- ASCII decimal digit test. -/
def isDigitByte (b : Nat) : Bool := decide (48 ≤ b ∧ b ≤ 57)

/-- Python int() on the header bytes (windows.py line 439): fails (raises)
on an empty or non-numeric header, otherwise the decimal value. -/
def parseDecimalBytes (l : List Nat) : Option Nat :=
  if l ≠ [] ∧ l.all isDigitByte then
    some (l.foldl (fun acc b => acc * 10 + (b - 48)) 0)
  else none

/-- Receiver of windows.py lines 428-457: split at the first colon, parse
the decimal length, then take exactly that many payload bytes; none models
a raised error or an incomplete frame. -/
def readFrame (stream : List Nat) : Option (List Nat × List Nat) :=
  match splitAtColon stream with
  | none => none
  | some (header, rest) =>
    match parseDecimalBytes header with
    | none => none
    | some n => if n ≤ rest.length then some (rest.take n, rest.drop n) else none

/-- Frame built by linux_listener.py line 194: JSON bytes plus a newline. -/
def hubFrame (payload : List Nat) : List Nat := payload ++ [10]

/-- The literal acknowledgement line b"OK\n" of linux_listener.py
lines 196 and 265. -/
def okBytes : List Nat := [79, 75, 10]

/-- ASCII bytes of the hub text message
json.dumps({"type": "text", "content": "hello"}), that is
the 36 bytes of the rendering with a space after each colon and comma:
open brace, "type": "text", "content": "hello", close brace. -/
def helloPayload : List Nat :=
  [123, 34, 116, 121, 112, 101, 34, 58, 32, 34, 116, 101, 120, 116, 34, 44, 32,
   34, 99, 111, 110, 116, 101, 110, 116, 34, 58, 32, 34, 104, 101, 108, 108, 111,
   34, 125]

/-! File chunking.  windows.py start_clipboard_sync lines 561-574 splits the
base64 data string at a fixed 1 MiB chunk size with the loop
for i in range(0, len(data), chunk_size), slicing data[i:i+chunk_size] and
flagging final on i + chunk_size >= len(data).  Lines 591-616 collect
received chunks until the final flag and join them. -/

/-- Fuel-driven core of the Python range(start, stop, step) enumeration;
the fuel is consumed one unit per produced element so the definition is
structural and computable.  pyRange supplies fuel stop - start, which
suffices whenever step is at least 1. -/
def pyRangeAux (step stop : Nat) : Nat → Nat → List Nat
  | 0, _ => []
  | fuel + 1, start =>
    if start < stop then start :: pyRangeAux step stop fuel (start + step) else []

/-- Python range(start, stop, step) for a positive step (range raises on a
zero step; the source only uses step 1048576). -/
def pyRange (start stop step : Nat) : List Nat :=
  if step = 0 then [] else pyRangeAux step stop (stop - start) start

/-- One file_chunk message of windows.py lines 566-571.  offset records the
loop index i at which the chunk was sliced, to state emission order. -/
structure FileChunkMsg where
  name : String
  offset : Nat
  chunk : List Nat
  final : Bool
deriving DecidableEq, Repr

/-- The local chunk_size of windows.py line 562 (1 MiB). -/
def chunk_size : Nat := 1024 * 1024

/-- The chunk loop of windows.py lines 564-574: one file_chunk message per
range index, slicing data[i:i+chunk_size], final when i + chunk_size
reaches the end. -/
def sendFileChunks (name : String) (data : List Nat) : List FileChunkMsg :=
  (pyRange 0 data.length chunk_size).map fun i =>
    { name := name, offset := i, chunk := (data.drop i).take chunk_size,
      final := decide (data.length ≤ i + chunk_size) }

/-- The receive loop of windows.py lines 596-603: append each arriving
chunk, stopping after the one whose final flag is set. -/
def recvChunks : List FileChunkMsg → List (List Nat)
  | [] => []
  | m :: rest => if m.final then [m.chunk] else m.chunk :: recvChunks rest

/-- Reassembly join of windows.py line 612. -/
def reassembleChunks (msgs : List FileChunkMsg) : List Nat :=
  (recvChunks msgs).flatten

/-! Content fingerprint and change detection.
windows.py ClipboardHandler lines 125-161. -/

/-- One entry of a files clipboard payload (windows.py lines 242-247). -/
structure FileEntry where
  name : String
  size : Nat
  data : String
  compressed : Bool
deriving DecidableEq

/-- Clipboard content, the tagged shape of windows.py content dicts:
either text with a data string or a list of file entries. -/
inductive Content where
  | text (data : String)
  | files (files : List FileEntry)
deriving DecidableEq

/-- Per-file digest of windows.py lines 142-144: sha256 of "name:size".
The sha parameter stands for the external hashlib sha256 hexdigest. -/
def fileEntryHash (sha : String → String) (f : FileEntry) : String :=
  sha (f.name ++ ":" ++ toString f.size)

/-- File-set fingerprint of windows.py line 146: sha256 of the
concatenation of the sorted per-file digests. -/
def fingerprintFiles (sha : String → String) (files : List FileEntry) : String :=
  sha (String.join (List.insertionSort (fun a b => a ≤ b) (files.map (fileEntryHash sha))))

/-- windows.py _calculate_content_hash lines 135-149 on well-formed
content; the None result of the exception path cannot arise for the two
typed variants. -/
def calculate_content_hash (sha : String → String) : Content → Option String
  | .text data => some (sha data)
  | .files files => some (fingerprintFiles sha files)

/-- The single-slot detector state, windows.py line 128 (last_hash,
initially None). -/
structure ClipboardHandlerState where
  last_hash : Option String
deriving DecidableEq

/-- windows.py is_new_content lines 151-161: None content is never new; a
content whose hash equals the stored hash is suppressed; otherwise the
hash is stored and the content is reported new. -/
def is_new_content (sha : String → String) (st : ClipboardHandlerState) :
    Option Content → Bool × ClipboardHandlerState
  | none => (false, st)
  | some c =>
    let h := calculate_content_hash sha c
    if h = st.last_hash then (false, st) else (true, { last_hash := h })

/-- Number of network sends performed by the polling loop of windows.py
lines 542-577 over a sequence of observed clipboard contents: one send per
content that is_new_content accepts. -/
def countSends (sha : String → String) (st : ClipboardHandlerState) :
    List (Option Content) → Nat
  | [] => 0
  | c :: rest =>
    let r := is_new_content sha st c
    (if r.1 then 1 else 0) + countSends sha r.2 rest

/-! Hub broadcast relay, linux_listener.py ClipboardServer. -/

/-- linux_listener.py broadcast_to_clients lines 184-210, as the list of
send events it performs in loop order: every registered client other than
skip_client is sent the JSON payload plus a newline, then the OK line.
Clients are modelled by numeric identities. -/
def broadcast_to_clients (clients : List Nat) (skip_client : Option Nat)
    (payload : List Nat) : List (Nat × List Nat) :=
  ((clients.filter fun c => skip_client != some c).map fun c =>
    [(c, payload ++ [10]), (c, okBytes)]).flatten

/-- The non-file inbound path of linux_listener.py handle_client lines
261-265: broadcast the parsed line with the sending client excluded, then
send the OK acknowledgement to the sender. -/
def handle_client_text (clients : List Nat) (sender : Nat) (payload : List Nat) :
    List (Nat × List Nat) :=
  broadcast_to_clients clients (some sender) payload ++ [(sender, okBytes)]

/-- Shape of a parsed inbound JSON line on the hub: its type tag and its
content and filename fields, both defaulting to the empty string when
absent (data.get of linux_listener.py lines 253-256). -/
structure HubMsg where
  mtype : String
  content : String
  filename : String
deriving DecidableEq

/-- Externally visible effects of applying one inbound line on the hub. -/
structure HubAction where
  clipboard_write : Option String
  file_write : Option (String × String)
  broadcasts : Bool
deriving DecidableEq

/-- linux_listener.py handle_client lines 255-263: a line of type "file"
writes the decoded content under filename in the sync directory and sets
the clipboard to that path (modelled by the filename); every other type,
including file_chunk, sets the clipboard to the content field and is
rebroadcast. -/
def hub_apply (m : HubMsg) : HubAction :=
  if m.mtype = "file" then
    { clipboard_write := some m.filename, file_write := some (m.filename, m.content),
      broadcasts := false }
  else
    { clipboard_write := some m.content, file_write := none, broadcasts := true }

/-! Client-side inbound dispatch, windows.py start_clipboard_sync
lines 586-624. -/

/-- The message variants the client dispatch inspects via data.get of the
type field. -/
inductive ClientMsg where
  | keep_alive
  | file_info (name : String) (size : Nat) (compressed : Bool)
  | file_chunk (name : String) (chunk : String) (final : Bool)
  | text (data : String)
deriving DecidableEq

/-- Client-side state touched by the dispatch: the change-detector slot and
the clipboard the excluded OS adapter would hold. -/
structure ClientState where
  handler : ClipboardHandlerState
  clipboard : Option Content
deriving DecidableEq

/-- windows.py set_clipboard_content lines 266-279: a duplicate (per
is_new_content) returns without touching the clipboard; otherwise the
content is written and the corresponding log lines are emitted
(lines 289 and 317). -/
def set_clipboard_content (sha : String → String) (st : ClientState)
    (content : Content) : ClientState × List String :=
  let r := is_new_content sha st.handler (some content)
  if r.1 then
    ({ handler := r.2, clipboard := some content },
     match content with
     | .text _ => ["Text content set to clipboard"]
     | .files fs => fs.map fun f => "Saved file: " ++ f.name)
  else ({ st with handler := r.2 }, [])

/-- The chunk-collection loop of windows.py lines 596-603: consume pending
messages while they are file_chunk, keeping their chunk fields, stopping
after a final chunk or at the first non-chunk message. -/
def collectChunks : List ClientMsg → List String
  | ClientMsg.file_chunk _ c fin :: rest => if fin then [c] else c :: collectChunks rest
  | _ => []

/-- The top-level inbound dispatch of windows.py lines 587-619, returning
the new state, the log lines emitted, and whether a transfer session
(a TransferProgress, line 592) was created.  keep_alive is skipped;
file_info opens a session and collects the pending chunks; text is applied
to the clipboard; a file_chunk matches no branch of the if/elif chain and
falls through: nothing runs. -/
def clipboard_sync_dispatch (sha : String → String) (st : ClientState)
    (msg : ClientMsg) (pending : List ClientMsg) : ClientState × List String × Bool :=
  match msg with
  | .keep_alive => (st, [], false)
  | .file_info name size compressed =>
    let chunks := collectChunks pending
    if chunks.isEmpty then (st, [], true)
    else
      let r := set_clipboard_content sha st
        (.files [{ name := name, size := size, data := String.join chunks,
                   compressed := compressed }])
      (r.1, r.2, true)
  | .text data =>
    let r := set_clipboard_content sha st (.text data)
    (r.1, r.2, false)
  | .file_chunk _ _ _ => (st, [], false)

/-! Transfer progress, windows.py TransferProgress lines 45-79. -/

/-- windows.py line 34. -/
def PROGRESS_UPDATE_INTERVAL : Rat := 1 / 2

/-- windows.py TransferProgress fields, lines 46-53.  Sizes are byte
counts; times are wall-clock seconds. -/
structure TransferProgress where
  total_size : Nat
  current_size : Nat
  start_time : Rat
  filename : String
  speed : Rat
  last_update : Rat
  last_size : Nat
deriving DecidableEq

/-- windows.py TransferProgress constructor lines 46-53, with time.time()
passed in as now. -/
def TransferProgress.init (total_size : Nat) (filename : String) (now : Rat) :
    TransferProgress :=
  { total_size := total_size, current_size := 0, start_time := now,
    filename := filename, speed := 0, last_update := now, last_size := 0 }

/-- windows.py TransferProgress.update lines 55-79 with time.time() passed
in as now: current_size always grows by the delta; once the 0.5 s sampling
interval has elapsed the speed sample is recomputed and _log_progress
(lines 67-79) runs.  _log_progress has two unguarded raise paths, both
modelled as errors, in source order: line 68 divides current_size by
total_size, raising ZeroDivisionError when total_size is zero, and lines
72-74 pass eta_seconds = remaining_bytes / speed to time.gmtime, which on
Windows (this file's only platform: it imports win32clipboard) raises
OSError for a negative timestamp - reached exactly when the freshly
computed speed is positive and current_size has overshot total_size, so
that the ETA is negative.  The model computes in exact rationals;
gmtime's finite upper range for astronomically large positive ETAs and
float rounding are outside it. -/
def TransferProgress.update (tp : TransferProgress) (bytes_transferred : Nat)
    (now : Rat) : Except String TransferProgress :=
  if PROGRESS_UPDATE_INTERVAL ≤ now - tp.last_update then
    if tp.total_size = 0 then Except.error "ZeroDivisionError"
    else if 0 < (((tp.current_size + bytes_transferred : Nat) : Rat) - (tp.last_size : Rat))
          / (now - tp.last_update) ∧
        ((tp.total_size : Rat) - ((tp.current_size + bytes_transferred : Nat) : Rat))
          / ((((tp.current_size + bytes_transferred : Nat) : Rat) - (tp.last_size : Rat))
            / (now - tp.last_update)) < 0 then
      Except.error "OSError"
    else
      Except.ok
        { tp with
          current_size := tp.current_size + bytes_transferred,
          speed := (((tp.current_size + bytes_transferred : Nat) : Rat) - (tp.last_size : Rat))
            / (now - tp.last_update),
          last_update := now, last_size := tp.current_size + bytes_transferred }
  else Except.ok { tp with current_size := tp.current_size + bytes_transferred }

/-- A sequence of update calls, each with its byte delta and its
wall-clock time; stops at the first raised error. -/
def runUpdates (tp : TransferProgress) : List (Nat × Rat) → Except String TransferProgress
  | [] => Except.ok tp
  | (b, t) :: rest =>
    match tp.update b t with
    | Except.ok tp2 => runUpdates tp2 rest
    | Except.error e => Except.error e

/-! Connection supervisor reconnect loop, windows.py start_clipboard_sync
lines 520-641 restricted to the path in which every connect attempt
fails. -/

/-- windows.py line 33. -/
def RECONNECT_DELAY : Nat := 5

/-- Observable supervisor state: the running flag of UnifiedClient, the
number of connect attempts made, and the total seconds spent sleeping in
the reconnect backoff. -/
structure SupervisorState where
  running : Bool
  attempts : Nat
  waited : Nat
deriving DecidableEq

/-- One iteration of the outer while self.running loop in which
socket.connect raises: the except branch of lines 632-636 logs and, while
still running, sleeps RECONNECT_DELAY seconds before the loop re-enters
the connecting step. -/
def failedConnectIteration (s : SupervisorState) : SupervisorState :=
  if s.running then
    { s with attempts := s.attempts + 1, waited := s.waited + RECONNECT_DELAY }
  else s

/-- The supervisor after n consecutive failed connect attempts with no
shutdown request: running starts true (UnifiedClient.start line 645) and
nothing in the failure path clears it. -/
def superviseFailures : Nat → SupervisorState
  | 0 => { running := true, attempts := 0, waited := 0 }
  | n + 1 => failedConnectIteration (superviseFailures n)

/-! Theorems. -/

/-- C9: with every connect attempt failing and no shutdown, the supervisor
is still running after any number n of failed attempts, has made exactly n
attempts, and has slept exactly (hence at least) n times the fixed
5-second RECONNECT_DELAY between them. -/
theorem reconnect_backoff_indefinite (n : Nat) :
    (superviseFailures n).running = true ∧
    (superviseFailures n).attempts = n ∧
    (superviseFailures n).waited = RECONNECT_DELAY * n ∧
    RECONNECT_DELAY * n ≤ (superviseFailures n).waited := by
  induction n with
  | zero => exact ⟨rfl, rfl, rfl, le_refl _⟩
  | succ k ih =>
    obtain ⟨h1, h2, h3, _⟩ := ih
    have e1 : (superviseFailures (k + 1)).running = true := by
      simp [superviseFailures, failedConnectIteration, h1]
    have e2 : (superviseFailures (k + 1)).attempts = k + 1 := by
      simp [superviseFailures, failedConnectIteration, h1, h2]
    have e3 : (superviseFailures (k + 1)).waited = RECONNECT_DELAY * (k + 1) := by
      have estep : (superviseFailures (k + 1)).waited =
          (superviseFailures k).waited + RECONNECT_DELAY := by
        simp [superviseFailures, failedConnectIteration, h1]
      rw [estep, h3]
      ring
    exact ⟨e1, e2, e3, e3 ▸ le_refl _⟩

/-- C3: for content whose fingerprint differs from the stored slot, the
change detector reports new on the first call and suppresses the identical
second call, so polling the same content twice performs exactly one send. -/
theorem change_detector_idempotent (sha : String → String)
    (st : ClipboardHandlerState) (c : Content)
    (hnew : calculate_content_hash sha c ≠ st.last_hash) :
    (is_new_content sha st (some c)).1 = true ∧
    (is_new_content sha (is_new_content sha st (some c)).2 (some c)).1 = false ∧
    countSends sha st [some c, some c] = 1 := by
  have e1 : is_new_content sha st (some c) =
      (true, { last_hash := calculate_content_hash sha c }) := by
    simp [is_new_content, hnew]
  have e2 : is_new_content sha { last_hash := calculate_content_hash sha c } (some c) =
      (false, { last_hash := calculate_content_hash sha c }) := by
    simp [is_new_content]
  refine ⟨by rw [e1], by rw [e1, e2], ?_⟩
  simp [countSends, e1, e2]

/-- Witness for C3 at a fresh detector and the text content hello. -/
theorem change_detector_idempotent_witness :
    (is_new_content (fun s => s) { last_hash := none } (some (Content.text "hello"))).1 = true ∧
    (is_new_content (fun s => s)
      (is_new_content (fun s => s) { last_hash := none } (some (Content.text "hello"))).2
      (some (Content.text "hello"))).1 = false ∧
    countSends (fun s => s) { last_hash := none }
      [some (Content.text "hello"), some (Content.text "hello")] = 1 :=
  change_detector_idempotent (fun s => s) { last_hash := none } (Content.text "hello")
    (by simp [calculate_content_hash])

/-- C8: the file-set fingerprint is invariant under permutation of the
enumeration order, because the per-file digests are sorted before being
concatenated and rehashed. -/
theorem fingerprint_order_invariant (sha : String → String)
    (l1 l2 : List FileEntry) (hperm : l1.Perm l2) :
    fingerprintFiles sha l1 = fingerprintFiles sha l2 := by
  unfold fingerprintFiles
  have hs1 : List.Sorted (fun a b : String => a ≤ b)
      (List.insertionSort (fun a b => a ≤ b) (l1.map (fileEntryHash sha))) :=
    List.sorted_insertionSort _ _
  have hs2 : List.Sorted (fun a b : String => a ≤ b)
      (List.insertionSort (fun a b => a ≤ b) (l2.map (fileEntryHash sha))) :=
    List.sorted_insertionSort _ _
  have hp : (List.insertionSort (fun a b : String => a ≤ b)
        (l1.map (fileEntryHash sha))).Perm
      (List.insertionSort (fun a b => a ≤ b) (l2.map (fileEntryHash sha))) :=
    (List.perm_insertionSort _ _).trans
      ((hperm.map _).trans (List.perm_insertionSort _ _).symm)
  rw [List.eq_of_perm_of_sorted hp hs1 hs2]

/-- Witness for C8 on a concrete two-file set and its transposition. -/
theorem fingerprint_order_invariant_witness :
    fingerprintFiles (fun s => s)
        [{ name := "a", size := 1, data := "", compressed := false },
         { name := "b", size := 2, data := "", compressed := false }] =
      fingerprintFiles (fun s => s)
        [{ name := "b", size := 2, data := "", compressed := false },
         { name := "a", size := 1, data := "", compressed := false }] :=
  fingerprint_order_invariant (fun s => s) _ _
    (List.Perm.swap ({ name := "b", size := 2, data := "", compressed := false } : FileEntry)
      ({ name := "a", size := 1, data := "", compressed := false } : FileEntry) [])

/-- C1: evaluation at the failing input.  For the concrete hub text
message helloPayload, the hub broadcast frame (JSON plus newline, lines
194-196 of linux_listener.py) is not decodable by the length-prefixed
receiver: the bytes before the first colon are not a decimal number, so
int() raises and no message is recovered; the hub frame also differs from
the length-prefixed frame the claim mandates, which the client-side
encoder does produce and whose decode recovers the payload exactly. -/
theorem framing_code_bug_eval :
    readFrame (hubFrame helloPayload) = none ∧
    hubFrame helloPayload ≠ clientFrame helloPayload ∧
    readFrame (clientFrame helloPayload) = some (helloPayload, []) := by
  refine ⟨by decide, by decide, by decide⟩

/-- Helper: every send event produced by a broadcast that skips a client
targets a different client than the skipped one. -/
theorem broadcast_skip_not_target (clients : List Nat) (orig : Nat)
    (payload : List Nat) :
    ∀ e ∈ broadcast_to_clients clients (some orig) payload, e.1 ≠ orig := by
  intro e he
  simp only [broadcast_to_clients, List.mem_flatten, List.mem_map, List.mem_filter]
    at he
  obtain ⟨l, ⟨c, ⟨hc, hne⟩, rfl⟩, hmem⟩ := he
  have hcne : c ≠ orig := by
    intro h
    subst h
    simp at hne
  simp only [List.mem_cons, List.mem_singleton] at hmem
  rcases hmem with h | h | h
  · rw [h]; exact hcne
  · rw [h]; exact hcne
  · cases h

/-- Helper: every registered client other than the skipped one receives
the relayed payload line. -/
theorem broadcast_mem_payload (clients : List Nat) (orig : Nat) (payload : List Nat)
    (c : Nat) (hc : c ∈ clients) (hne : c ≠ orig) :
    (c, payload ++ [10]) ∈ broadcast_to_clients clients (some orig) payload := by
  simp only [broadcast_to_clients, List.mem_flatten, List.mem_map, List.mem_filter]
  refine ⟨[(c, payload ++ [10]), (c, okBytes)], ⟨c, ⟨hc, ?_⟩, rfl⟩, by simp⟩
  simp [hne.symm]

/-- Helper: every registered client other than the skipped one also
receives the OK acknowledgement line during a broadcast. -/
theorem broadcast_mem_ok (clients : List Nat) (orig : Nat) (payload : List Nat)
    (c : Nat) (hc : c ∈ clients) (hne : c ≠ orig) :
    (c, okBytes) ∈ broadcast_to_clients clients (some orig) payload := by
  simp only [broadcast_to_clients, List.mem_flatten, List.mem_map, List.mem_filter]
  refine ⟨[(c, payload ++ [10]), (c, okBytes)], ⟨c, ⟨hc, ?_⟩, rfl⟩, by simp⟩
  simp [hne.symm]

/-- C4: a hub broadcast with an originator sends the relayed line to every
registered peer other than the originator, never targets the originator,
and the inbound text path (which broadcasts with the sending socket as
skip_client) sends the originator nothing but its OK acknowledgement. -/
theorem broadcast_no_echo (clients : List Nat) (orig : Nat) (payload : List Nat) :
    (∀ e ∈ broadcast_to_clients clients (some orig) payload, e.1 ≠ orig) ∧
    (∀ c ∈ clients, c ≠ orig →
      (c, payload ++ [10]) ∈ broadcast_to_clients clients (some orig) payload) ∧
    (∀ e ∈ handle_client_text clients orig payload, e.1 = orig → e.2 = okBytes) := by
  refine ⟨broadcast_skip_not_target clients orig payload,
    fun c hc hne => broadcast_mem_payload clients orig payload c hc hne, ?_⟩
  intro e he heq
  unfold handle_client_text at he
  rw [List.mem_append] at he
  rcases he with h | h
  · exact absurd heq (broadcast_skip_not_target clients orig payload e h)
  · simp only [List.mem_singleton] at h
    rw [h]

/-- C6 counterexample: with registered clients 1 and 2 and an inbound text
line from client 1, client 2 receives the literal OK acknowledgement line
as part of the broadcast, so an acknowledgement is delivered to a
non-originating peer, contradicting the claim that acknowledgements go to
the sender only. -/
theorem ack_broadcast_counterexample :
    ((2 : Nat), okBytes) ∈ handle_client_text [1, 2] 1 helloPayload := by decide

/-- C6 amended: the hub does send an OK acknowledgement to the sender
after applying an inbound message, but broadcast_to_clients also sends an
OK line to every non-originating recipient right after the relayed
payload, so acknowledgements are not sender-only; the originator itself
still receives no broadcast event. -/
theorem ack_targeting_amended (clients : List Nat) (sender : Nat) (payload : List Nat) :
    (sender, okBytes) ∈ handle_client_text clients sender payload ∧
    (∀ c ∈ clients, c ≠ sender →
      (c, okBytes) ∈ broadcast_to_clients clients (some sender) payload) ∧
    (∀ e ∈ broadcast_to_clients clients (some sender) payload, e.1 ≠ sender) := by
  refine ⟨?_, fun c hc hne => broadcast_mem_ok clients sender payload c hc hne,
    broadcast_skip_not_target clients sender payload⟩
  unfold handle_client_text
  rw [List.mem_append]
  right
  simp

/-- C5 counterexample: the hub receiving a file_chunk line for which no
session exists (the hub keeps no chunk sessions at all) does not discard
it: handle_client treats every non-file type as a text update, so the
clipboard is overwritten with the chunk message's empty content field and
the line is rebroadcast. -/
theorem orphan_chunk_counterexample :
    (hub_apply { mtype := "file_chunk", content := "", filename := "f.txt" }).clipboard_write
      = some "" ∧
    (hub_apply { mtype := "file_chunk", content := "", filename := "f.txt" }).broadcasts
      = true := ⟨rfl, rfl⟩

/-- C5 amended: on the Windows client a file_chunk with no open file_info
session matches no branch of the dispatch and is silently ignored: the
state is untouched, no session is created, no log line is emitted and the
dispatch returns normally; the hub, having no sessions, instead treats
the chunk as a text update, writing its empty content field to the
clipboard and rebroadcasting it. -/
theorem orphan_chunk_amended (sha : String → String) (st : ClientState)
    (name chunk : String) (fin : Bool) (pending : List ClientMsg) :
    clipboard_sync_dispatch sha st (ClientMsg.file_chunk name chunk fin) pending
      = (st, [], false) ∧
    (hub_apply { mtype := "file_chunk", content := "", filename := name }).clipboard_write
      = some "" ∧
    (hub_apply { mtype := "file_chunk", content := "", filename := name }).file_write
      = none ∧
    (hub_apply { mtype := "file_chunk", content := "", filename := name }).broadcasts
      = true := ⟨rfl, rfl, rfl, rfl⟩

/-- Helper: a successful update advances current_size by exactly the byte
delta, whichever branch of the sampling interval was taken. -/
theorem update_ok_current_size (tp : TransferProgress) (b : Nat) (t : Rat)
    (tp2 : TransferProgress) (h : tp.update b t = Except.ok tp2) :
    tp2.current_size = tp.current_size + b := by
  unfold TransferProgress.update at h
  split at h
  · split at h
    · cases h
    · split at h
      · cases h
      · cases h
        rfl
  · cases h
    rfl

/-- Helper: a successful run of updates advances current_size by the sum
of the byte deltas. -/
theorem runUpdates_ok_current_size (ds : List (Nat × Rat)) :
    ∀ tp tp2 : TransferProgress, runUpdates tp ds = Except.ok tp2 →
      tp2.current_size = tp.current_size + (ds.map Prod.fst).sum := by
  induction ds with
  | nil =>
    intro tp tp2 h
    cases h
    simp
  | cons d rest ih =>
    intro tp tp2 h
    obtain ⟨b, t⟩ := d
    unfold runUpdates at h
    cases hu : TransferProgress.update tp b t with
    | error e => rw [hu] at h; cases h
    | ok tpm =>
      rw [hu] at h
      have h1 := update_ok_current_size tp b t tpm hu
      have h2 := ih tpm tp2 h
      rw [h2, h1]
      simp
      omega

/-- C7 counterexample: a session of total size 1 updated with a delta of
2 bytes succeeds and leaves current_size at 2, which exceeds total_size,
so current_size is not bounded by totalSize for arbitrary non-negative
deltas (the code never clamps it). -/
theorem transfer_progress_counterexample :
    TransferProgress.update (TransferProgress.init 1 "f" 0) 2 0 =
      Except.ok { total_size := 1, current_size := 2, start_time := 0, filename := "f",
                  speed := 0, last_update := 0, last_size := 0 } ∧
    ¬ ((2 : Nat) ≤ 1) := by
  refine ⟨?_, by omega⟩
  norm_num [TransferProgress.update, TransferProgress.init, PROGRESS_UPDATE_INTERVAL]

/-- C7 amended: over any successfully completed sequence of updates from a
fresh session, current_size equals the sum of the deltas (each single
update being monotonically non-decreasing); it stays within totalSize
exactly as far as the delta sum does, and reaches totalSize exactly when
the deltas sum to totalSize - the class itself never enforces the bound. -/
theorem transfer_progress_amended (total : Nat) (fname : String) (t0 : Rat)
    (ds : List (Nat × Rat)) (tp2 : TransferProgress)
    (h : runUpdates (TransferProgress.init total fname t0) ds = Except.ok tp2) :
    tp2.current_size = (ds.map Prod.fst).sum ∧
    (∀ (tp : TransferProgress) (b : Nat) (t : Rat) (tp3 : TransferProgress),
      tp.update b t = Except.ok tp3 → tp.current_size ≤ tp3.current_size) ∧
    ((ds.map Prod.fst).sum ≤ total → tp2.current_size ≤ total) ∧
    (tp2.current_size = total ↔ (ds.map Prod.fst).sum = total) := by
  have hsum := runUpdates_ok_current_size ds (TransferProgress.init total fname t0) tp2 h
  have hz : (TransferProgress.init total fname t0).current_size = 0 := rfl
  rw [hz] at hsum
  simp only [Nat.zero_add] at hsum
  refine ⟨hsum, ?_, ?_, ?_⟩
  · intro tp b t tp3 h3
    rw [update_ok_current_size tp b t tp3 h3]
    omega
  · intro hle
    rw [hsum]
    exact hle
  · rw [hsum]

/-- Witness for C7 amended: a total-3 session run with deltas 1 and 2. -/
theorem transfer_progress_amended_witness :
    ({ total_size := 3, current_size := 3, start_time := 0, filename := "f",
       speed := 0, last_update := 0, last_size := 0 } : TransferProgress).current_size =
      (([((1 : Nat), (0 : Rat)), (2, 0)].map Prod.fst).sum) ∧
    (∀ (tp : TransferProgress) (b : Nat) (t : Rat) (tp3 : TransferProgress),
      tp.update b t = Except.ok tp3 → tp.current_size ≤ tp3.current_size) ∧
    (([((1 : Nat), (0 : Rat)), (2, 0)].map Prod.fst).sum ≤ 3 →
      ({ total_size := 3, current_size := 3, start_time := 0, filename := "f",
         speed := 0, last_update := 0, last_size := 0 } : TransferProgress).current_size ≤ 3) ∧
    (({ total_size := 3, current_size := 3, start_time := 0, filename := "f",
        speed := 0, last_update := 0, last_size := 0 } : TransferProgress).current_size = 3 ↔
      (([((1 : Nat), (0 : Rat)), (2, 0)].map Prod.fst).sum = 3)) :=
  transfer_progress_amended 3 "f" 0 [(1, 0), (2, 0)]
    { total_size := 3, current_size := 3, start_time := 0, filename := "f",
      speed := 0, last_update := 0, last_size := 0 }
    (by norm_num [runUpdates, TransferProgress.update, TransferProgress.init,
      PROGRESS_UPDATE_INTERVAL])

/-- C10 counterexample: a session created with positive totalSize 1 and
updated with delta 7 one second after creation hits the sampled branch
with measured speed 7 > 0 and remaining bytes 1 - 7 = -6, so
_log_progress hands the negative ETA -6/7 to time.gmtime and raises
OSError on Windows: update does raise for a session whose totalSize is
positive, refuting the claim's never-raises clause. -/
theorem update_positive_total_raises_counterexample :
    0 < (TransferProgress.init 1 "f" 0).total_size ∧
    (TransferProgress.init 1 "f" 0).update 7 1 = Except.error "OSError" := by
  constructor
  · norm_num [TransferProgress.init]
  · norm_num [TransferProgress.update, TransferProgress.init, PROGRESS_UPDATE_INTERVAL]

/-- C10 amended: totalSize > 0 is a necessary precondition for update not
to raise - a session created with totalSize 0 raises ZeroDivisionError on
the first update at least 0.5 seconds after creation - but it is not
sufficient: at a sampled update whose freshly measured speed is positive
and whose currentSize after the delta has overshot totalSize,
_log_progress passes the negative ETA to time.gmtime, which raises
OSError on Windows; update does not raise when totalSize is positive and
currentSize after the delta stays within totalSize. -/
theorem update_total_precondition_amended (tp : TransferProgress) (b : Nat) (now : Rat)
    (fname : String) (t0 : Rat) :
    (0 < tp.total_size → tp.current_size + b ≤ tp.total_size →
      ∃ tp2, tp.update b now = Except.ok tp2) ∧
    (PROGRESS_UPDATE_INTERVAL ≤ now - t0 →
      (TransferProgress.init 0 fname t0).update b now = Except.error "ZeroDivisionError") ∧
    (PROGRESS_UPDATE_INTERVAL ≤ now - tp.last_update → tp.total_size ≠ 0 →
      0 < (((tp.current_size + b : Nat) : Rat) - (tp.last_size : Rat)) / (now - tp.last_update) →
      (tp.total_size : Rat) < ((tp.current_size + b : Nat) : Rat) →
      tp.update b now = Except.error "OSError") := by
  refine ⟨?_, ?_, ?_⟩
  · intro hpos hle
    unfold TransferProgress.update
    by_cases hint : PROGRESS_UPDATE_INTERVAL ≤ now - tp.last_update
    · have hcond : ¬ (0 < (((tp.current_size + b : Nat) : Rat) - (tp.last_size : Rat))
            / (now - tp.last_update) ∧
          ((tp.total_size : Rat) - ((tp.current_size + b : Nat) : Rat))
            / ((((tp.current_size + b : Nat) : Rat) - (tp.last_size : Rat))
              / (now - tp.last_update)) < 0) := by
        rintro ⟨hsp, heta⟩
        have hnum : (0 : Rat) ≤ (tp.total_size : Rat) - ((tp.current_size + b : Nat) : Rat) := by
          rw [sub_nonneg]
          exact_mod_cast hle
        have hq := div_nonneg hnum (le_of_lt hsp)
        linarith
      rw [if_pos hint, if_neg (by omega), if_neg hcond]
      exact ⟨_, rfl⟩
    · rw [if_neg hint]
      exact ⟨_, rfl⟩
  · intro hgap
    unfold TransferProgress.update
    have hlu : (TransferProgress.init 0 fname t0).last_update = t0 := rfl
    have htot : (TransferProgress.init 0 fname t0).total_size = 0 := rfl
    rw [hlu, htot, if_pos hgap, if_pos rfl]
  · intro hint htot hsp hlt
    unfold TransferProgress.update
    have heta : ((tp.total_size : Rat) - ((tp.current_size + b : Nat) : Rat))
        / ((((tp.current_size + b : Nat) : Rat) - (tp.last_size : Rat))
          / (now - tp.last_update)) < 0 :=
      div_neg_of_neg_of_pos (by rw [sub_neg]; exact hlt) hsp
    rw [if_pos hint, if_neg htot, if_pos ⟨hsp, heta⟩]

/-- Witness for C10 amended at a total-2 session updated within its total
one second after creation, and a zero-total session sampled at the same
gap. -/
theorem update_total_precondition_amended_witness :
    (0 < (TransferProgress.init 2 "g" 0).total_size →
      (TransferProgress.init 2 "g" 0).current_size + 1 ≤ (TransferProgress.init 2 "g" 0).total_size →
      ∃ tp2, (TransferProgress.init 2 "g" 0).update 1 1 = Except.ok tp2) ∧
    (PROGRESS_UPDATE_INTERVAL ≤ (1 : Rat) - 0 →
      (TransferProgress.init 0 "f" 0).update 1 1 = Except.error "ZeroDivisionError") ∧
    (PROGRESS_UPDATE_INTERVAL ≤ (1 : Rat) - (TransferProgress.init 2 "g" 0).last_update →
      (TransferProgress.init 2 "g" 0).total_size ≠ 0 →
      0 < ((((TransferProgress.init 2 "g" 0).current_size + 1 : Nat) : Rat) -
          ((TransferProgress.init 2 "g" 0).last_size : Rat))
        / ((1 : Rat) - (TransferProgress.init 2 "g" 0).last_update) →
      ((TransferProgress.init 2 "g" 0).total_size : Rat) <
        (((TransferProgress.init 2 "g" 0).current_size + 1 : Nat) : Rat) →
      (TransferProgress.init 2 "g" 0).update 1 1 = Except.error "OSError") :=
  update_total_precondition_amended (TransferProgress.init 2 "g" 0) 1 1 "f" 0

/-- Helper: pyRangeAux ignores the exact fuel value as soon as the fuel
dominates the remaining distance to stop. -/
theorem pyRangeAux_eq_of_le (step stop : Nat) (hstep : 0 < step) :
    ∀ f1 f2 start, stop - start ≤ f1 → stop - start ≤ f2 →
      pyRangeAux step stop f1 start = pyRangeAux step stop f2 start := by
  intro f1
  induction f1 with
  | zero =>
    intro f2 start h1 _
    have hss : ¬ start < stop := by omega
    cases f2 with
    | zero => rfl
    | succ g => simp [pyRangeAux, hss]
  | succ f ih =>
    intro f2 start h1 h2
    cases f2 with
    | zero =>
      have hss : ¬ start < stop := by omega
      simp [pyRangeAux, hss]
    | succ g =>
      by_cases hlt : start < stop
      · simp only [pyRangeAux, if_pos hlt]
        rw [ih g (start + step) (by omega) (by omega)]
      · simp [pyRangeAux, hlt]

/-- Helper: an exhausted range is empty. -/
theorem pyRange_nil_of (start stop step : Nat) (h : stop ≤ start) :
    pyRange start stop step = [] := by
  unfold pyRange
  by_cases hz : step = 0
  · rw [if_pos hz]
  · rw [if_neg hz]
    have : stop - start = 0 := by omega
    rw [this]
    rfl

/-- Helper: unfolding equation of pyRange at a live start index. -/
theorem pyRange_cons (start stop step : Nat) (hstep : 0 < step) (hlt : start < stop) :
    pyRange start stop step = start :: pyRange (start + step) stop step := by
  unfold pyRange
  rw [if_neg (by omega), if_neg (by omega)]
  obtain ⟨f, hf⟩ : ∃ f, stop - start = f + 1 := ⟨stop - start - 1, by omega⟩
  rw [hf]
  simp only [pyRangeAux, if_pos hlt]
  rw [pyRangeAux_eq_of_le step stop hstep f (stop - (start + step)) (start + step)
    (by omega) (by omega)]

/-- Helper: a range with positive step is strictly increasing. -/
theorem pyRange_chain (stop step : Nat) (hstep : 0 < step) :
    ∀ fuel start, stop - start ≤ fuel →
      List.Chain' (fun a b => a < b) (pyRange start stop step) := by
  intro fuel
  induction fuel with
  | zero =>
    intro start h
    rw [pyRange_nil_of _ _ _ (by omega)]
    exact List.chain'_nil
  | succ f ih =>
    intro start h
    by_cases hlt : start < stop
    · rw [pyRange_cons _ _ _ hstep hlt]
      rw [List.chain'_cons']
      refine ⟨?_, ih (start + step) (by omega)⟩
      intro b hb
      by_cases h2 : start + step < stop
      · rw [pyRange_cons _ _ _ hstep h2] at hb
        simp only [List.head?_cons, Option.mem_def, Option.some.injEq] at hb
        omega
      · rw [pyRange_nil_of _ _ _ (by omega)] at hb
        simp at hb
    · rw [pyRange_nil_of _ _ _ (by omega)]
      exact List.chain'_nil

/-- Helper: concatenating the window slices taken at the range indices
recovers the suffix of the data from the first index on. -/
theorem pyRange_slices_flatten (d : List Nat) (step : Nat) (hstep : 0 < step) :
    ∀ fuel start, d.length - start ≤ fuel →
      ((pyRange start d.length step).map fun i => (d.drop i).take step).flatten
        = d.drop start := by
  intro fuel
  induction fuel with
  | zero =>
    intro start h
    rw [pyRange_nil_of _ _ _ (by omega)]
    rw [List.drop_eq_nil_of_le (by omega)]
    rfl
  | succ f ih =>
    intro start h
    by_cases hlt : start < d.length
    · rw [pyRange_cons _ _ _ hstep hlt]
      simp only [List.map_cons, List.flatten_cons]
      rw [ih (start + step) (by omega)]
      have hdd : d.drop (start + step) = (d.drop start).drop step := by
        rw [List.drop_drop]
      rw [hdd, List.take_append_drop]
    · rw [pyRange_nil_of _ _ _ (by omega)]
      rw [List.drop_eq_nil_of_le (by omega)]
      rfl

/-- Helper: over a nonempty range, the final flags computed by the chunk
loop are false everywhere except on the very last index. -/
theorem pyRange_finals (d : List Nat) (step : Nat) (hstep : 0 < step) :
    ∀ fuel start, d.length - start ≤ fuel → start < d.length →
      ((pyRange start d.length step).map fun i => decide (d.length ≤ i + step)) =
        List.replicate ((pyRange start d.length step).length - 1) false ++ [true] := by
  intro fuel
  induction fuel with
  | zero =>
    intro start h hlt
    omega
  | succ f ih =>
    intro start h hlt
    rw [pyRange_cons _ _ _ hstep hlt]
    by_cases h2 : start + step < d.length
    · have hrec := ih (start + step) (by omega) h2
      simp only [List.map_cons, List.length_cons]
      rw [hrec]
      have hfalse : decide (d.length ≤ start + step) = false := by
        simp only [decide_eq_false_iff_not]
        omega
      rw [hfalse]
      have hne : pyRange (start + step) d.length step ≠ [] := by
        rw [pyRange_cons _ _ _ hstep h2]
        simp
      have hlen : 1 ≤ (pyRange (start + step) d.length step).length :=
        List.length_pos.mpr hne
      rw [Nat.add_sub_cancel]
      have hsucc : (pyRange (start + step) d.length step).length =
          ((pyRange (start + step) d.length step).length - 1) + 1 := by omega
      rw [hsucc, List.replicate_succ]
      simp
    · rw [pyRange_nil_of _ _ _ (by omega)]
      have htrue : decide (d.length ≤ start + step) = true := by
        simp only [decide_eq_true_eq]
        omega
      simp [htrue]

/-- Helper: every emitted chunk is a take of at most chunk_size bytes. -/
theorem sendFileChunks_chunk_le (name : String) (d : List Nat) :
    ∀ m ∈ sendFileChunks name d, m.chunk.length ≤ chunk_size := by
  intro m hm
  simp only [sendFileChunks, List.mem_map] at hm
  obtain ⟨i, _, rfl⟩ := hm
  simp only [List.length_take, List.length_drop]
  omega

/-- Helper: for nonempty data the emitted final flags are false on every
chunk except the last, which is flagged final. -/
theorem sendFileChunks_finals (name : String) (d : List Nat) (hne : d ≠ []) :
    (sendFileChunks name d).map FileChunkMsg.final =
      List.replicate ((sendFileChunks name d).length - 1) false ++ [true] := by
  have hpos : 0 < chunk_size := by norm_num [chunk_size]
  unfold sendFileChunks
  rw [List.map_map, List.length_map]
  have hcomp : (FileChunkMsg.final ∘ fun i =>
      ({ name := name, offset := i, chunk := (d.drop i).take chunk_size,
         final := decide (d.length ≤ i + chunk_size) } : FileChunkMsg)) =
      fun i => decide (d.length ≤ i + chunk_size) := rfl
  rw [hcomp]
  exact pyRange_finals d chunk_size hpos d.length 0 (by omega) (List.length_pos.mpr hne)

/-- Helper: when the final flags mark exactly the last message, the
receive loop keeps every chunk. -/
theorem recvChunks_eq_map_of_finals : ∀ msgs : List FileChunkMsg,
    msgs.map FileChunkMsg.final = List.replicate (msgs.length - 1) false ++ [true] →
    recvChunks msgs = msgs.map FileChunkMsg.chunk := by
  intro msgs
  induction msgs with
  | nil => intro h; simp at h
  | cons m rest ih =>
    intro h
    cases rest with
    | nil =>
      simp only [List.map_cons, List.map_nil, List.length_cons, List.length_nil,
        Nat.add_sub_cancel, List.replicate, List.nil_append, List.cons.injEq] at h
      simp [recvChunks, h.1]
    | cons m2 rest2 =>
      simp only [List.map_cons, List.length_cons] at h
      rw [show rest2.length + 1 + 1 - 1 = rest2.length + 1 by omega, List.replicate_succ,
        List.cons_append] at h
      injection h with h1 h2
      have ihh : recvChunks (m2 :: rest2) = (m2 :: rest2).map FileChunkMsg.chunk := by
        apply ih
        simp only [List.map_cons, List.length_cons]
        rw [show rest2.length + 1 - 1 = rest2.length by omega]
        exact h2
      have hstep : recvChunks (m :: m2 :: rest2) = m.chunk :: recvChunks (m2 :: rest2) := by
        simp [recvChunks, h1]
      rw [hstep, ihh]
      simp

/-- Helper: the receiver joins the chunks of the emitted messages back
into exactly the original data string. -/
theorem reassemble_sendFileChunks (name : String) (d : List Nat) :
    reassembleChunks (sendFileChunks name d) = d := by
  have hpos : 0 < chunk_size := by norm_num [chunk_size]
  by_cases hne : d = []
  · subst hne
    rfl
  · unfold reassembleChunks
    rw [recvChunks_eq_map_of_finals _ (sendFileChunks_finals name d hne)]
    unfold sendFileChunks
    rw [List.map_map]
    have hcomp : (FileChunkMsg.chunk ∘ fun i =>
        ({ name := name, offset := i, chunk := (d.drop i).take chunk_size,
           final := decide (d.length ≤ i + chunk_size) } : FileChunkMsg)) =
        fun i => (d.drop i).take chunk_size := rfl
    rw [hcomp]
    have hfl := pyRange_slices_flatten d chunk_size hpos d.length 0 (by omega)
    simpa using hfl

/-- Helper: data of exactly 2.5 MiB splits into three chunks of sizes
1 MiB, 1 MiB and 0.5 MiB, only the third flagged final. -/
theorem sendFileChunks_scenario (name : String) (d2 : List Nat)
    (hlen : d2.length = 2621440) :
    (sendFileChunks name d2).length = 3 ∧
    (sendFileChunks name d2).map FileChunkMsg.final = [false, false, true] ∧
    (sendFileChunks name d2).map (fun m => m.chunk.length) =
      [1048576, 1048576, 524288] := by
  have hpos : 0 < chunk_size := by norm_num [chunk_size]
  have hrange : pyRange 0 2621440 chunk_size = [0, 1048576, 2097152] := by
    rw [pyRange_cons _ _ _ hpos (by norm_num),
      pyRange_cons _ _ _ hpos (by norm_num [chunk_size]),
      pyRange_cons _ _ _ hpos (by norm_num [chunk_size]),
      pyRange_nil_of _ _ _ (by norm_num [chunk_size])]
    norm_num [chunk_size]
  unfold sendFileChunks
  rw [hlen, hrange]
  refine ⟨by simp, ?_, ?_⟩
  · simp only [List.map_cons, List.map_nil]
    norm_num [chunk_size]
  · simp only [List.map_cons, List.map_nil, List.length_take, List.length_drop, hlen]
    norm_num [chunk_size]

/-- C2: for any payload P, chunking its compressed base64-encoded form at
the fixed 1 MiB chunk size emits file_chunk messages in strictly
increasing offset order, each at most chunk_size long, with final set
exactly on the last chunk (for nonempty encoded data); joining the
received chunks, base64-decoding and decompressing recovers P; and
encoded data of exactly 2.5 MiB yields exactly 3 chunks whose third is
final with length 524288 < 1 MiB.  zlib and base64 are external library
collaborators, taken here as any pair of functions satisfying their
round-trip contracts. -/
theorem chunked_transfer_roundtrip
    (zcompress zdecompress b64encode b64decode : List Nat → List Nat)
    (hz : ∀ x, zdecompress (zcompress x) = x)
    (hb : ∀ x, b64decode (b64encode x) = x)
    (name : String) (P : List Nat) :
    List.Chain' (fun m1 m2 => m1.offset < m2.offset)
      (sendFileChunks name (b64encode (zcompress P))) ∧
    (∀ m ∈ sendFileChunks name (b64encode (zcompress P)), m.chunk.length ≤ chunk_size) ∧
    (b64encode (zcompress P) ≠ [] →
      (sendFileChunks name (b64encode (zcompress P))).map FileChunkMsg.final =
        List.replicate ((sendFileChunks name (b64encode (zcompress P))).length - 1) false
          ++ [true]) ∧
    zdecompress (b64decode (reassembleChunks (sendFileChunks name (b64encode (zcompress P)))))
      = P ∧
    (∀ d2 : List Nat, d2.length = 2621440 →
      (sendFileChunks name d2).length = 3 ∧
      (sendFileChunks name d2).map FileChunkMsg.final = [false, false, true] ∧
      (sendFileChunks name d2).map (fun m => m.chunk.length) =
        [1048576, 1048576, 524288]) := by
  have hpos : 0 < chunk_size := by norm_num [chunk_size]
  refine ⟨?_, sendFileChunks_chunk_le name _, sendFileChunks_finals name _, ?_,
    fun d2 hlen => sendFileChunks_scenario name d2 hlen⟩
  · unfold sendFileChunks
    rw [List.chain'_map]
    exact pyRange_chain _ chunk_size hpos _ 0 (le_refl _)
  · rw [reassemble_sendFileChunks, hb, hz]

/-- Witness for C2 with the identity functions standing in for the zlib
and base64 round trips and the three-byte payload 1, 2, 3. -/
theorem chunked_transfer_roundtrip_witness :
    List.Chain' (fun m1 m2 => m1.offset < m2.offset) (sendFileChunks "f" [1, 2, 3]) ∧
    (∀ m ∈ sendFileChunks "f" [1, 2, 3], m.chunk.length ≤ chunk_size) ∧
    (([1, 2, 3] : List Nat) ≠ [] →
      (sendFileChunks "f" [1, 2, 3]).map FileChunkMsg.final =
        List.replicate ((sendFileChunks "f" [1, 2, 3]).length - 1) false ++ [true]) ∧
    reassembleChunks (sendFileChunks "f" [1, 2, 3]) = [1, 2, 3] ∧
    (∀ d2 : List Nat, d2.length = 2621440 →
      (sendFileChunks "f" d2).length = 3 ∧
      (sendFileChunks "f" d2).map FileChunkMsg.final = [false, false, true] ∧
      (sendFileChunks "f" d2).map (fun m => m.chunk.length) =
        [1048576, 1048576, 524288]) :=
  chunked_transfer_roundtrip (fun x => x) (fun x => x) (fun x => x) (fun x => x)
    (fun _ => rfl) (fun _ => rfl) "f" [1, 2, 3]
